import Mathlib

/-!
Shallow embedding of `src/main/python/pybuilder_integration/tasks.py`.

Filesystem paths are modelled as lists of path components (`Path`).
The mutable process state (`St`) carries the current working directory,
the interpreter module search path (`sys.path`), the two exported
environment variables, the filesystem, the trace of engine invocations,
and the trace of artifact uploads.  External collaborators that are not
part of this repository's `tasks.py` (the pytest engine, the artifact
manager's download) are oracles bundled in `Ext`.  Dependency
installation (`install_dependencies`, `install_npm_dependencies`,
`install_cypress`), log tailing (`CloudwatchLogs.print_latest`) and the
build logger are modelled as no-ops: they do not touch any state the
claims mention.  `exec_utility.exec_command` for the cypress engine is
modelled from the spec: it runs the engine as an external process in the
given working directory and a non-zero exit is logged and non-fatal, so
in the model it only records the invocation.
-/

namespace PybuilderIntegration

/-- Filesystem paths as lists of components, root-relative. -/
abbrev Path := List String

/-- os.pardir -/
def pardir : String := ".."

/-- os.path.basename of a component path: its last component. -/
def basename (p : Path) : String := p.getLast?.getD ""

/-- os.path.realpath in a symlink-free model: resolve `..` components
left to right. -/
def realpathNorm (p : Path) : Path :=
  p.foldl (fun acc c => if c = pardir then acc.dropLast else acc ++ [c]) []

/-- Render a component path as the string the Python code passes on a
command line. -/
def renderPath (p : Path) : String := String.intercalate "/" p

/-- The two test frameworks handled by `tasks.py`. -/
inductive Tool
  | tavern
  | cypress
deriving DecidableEq

/-- Filesystem oracles, mirroring the `os`/`os.path` calls the code
makes.  The orchestrator never creates or removes directories, so the
directory oracles are static; file contents (`files`) change when
`shutil.copytree` runs. -/
structure FS where
  pathExists : Path → Bool
  isdir : Path → Bool
  listdir : Path → List String
  files : Path → Option String

/-- The slice of the pybuilder `Project` that `tasks.py` reads.
`recordCypress`/`promoteArtifact` are `none` when the property is unset
(`get_property` then falls back to its default `True`).
`zipArtifactPath` stands for `get_local_zip_artifact_path` from
`directory_utility` (not part of `tasks.py`): the deterministic local
archive path for a framework. -/
structure Project where
  targetUrl : String
  environment : String
  recordCypress : Option Bool
  verbose : Bool
  tavernExtraArgs : List String
  promoteArtifact : Option Bool
  reportsDir : Path
  workingDistDir : Path
  zipArtifactPath : Tool → Path

/-- One engine invocation as recorded in the trace: which framework ran,
the suite directory, the working directory the engine executed in, the
role passed to the runner, the argument list, and the report path. -/
structure Invocation where
  tool : Tool
  dir : Path
  runCwd : Path
  role : Option String
  args : List String
  reportPath : Path
deriving DecidableEq

/-- Exceptions: `BuildFailedException` with its message, or an exception
propagating out of an external collaborator. -/
inductive PyErr
  | buildFailed (msg : String)
  | raised
deriving DecidableEq

/-- Mutable process state threaded through the orchestration. -/
structure St where
  cwd : Path
  syspath : List Path
  envTarget : Option String
  envEnvironment : Option String
  fs : FS
  trace : List Invocation
  uploads : List Tool

/-- External collaborators: `pytest.main` (keyed by the working
directory it runs in and its argument list; it may raise or return an
exit code) and the artifact manager's `download_artifacts`. -/
structure Ext where
  pytestMain : Path → List String → Except Unit Int
  downloadArtifacts : Except Unit Path

/-- tasks.py lines 167-170: `run_name` is the basename of
`realpath(join(test_dir, pardir))`; the report file is
`{reports}/{tool}-{run_name}.out.xml`. -/
def get_test_report_file (project : Project) (test_dir : Path) (tool : String := "tavern") :
    Path × String :=
  let run_name := basename (realpathNorm (test_dir ++ [pardir]))
  let output_file := project.reportsDir ++ [tool ++ "-" ++ run_name ++ ".out.xml"]
  (output_file, run_name)

/-- Strip a directory from the front of a path; `some rest` when `p`
lies under `base`. -/
def dropBase : Path → Path → Option Path
  | [], p => some p
  | _ :: _, [] => none
  | b :: bs, x :: xs => if b = x then dropBase bs xs else none

/-- shutil.copytree with dirs_exist_ok=True: every file under `src` is
copied to the same relative path under `dst`, overwriting what was
there; files of `dst` with no counterpart under `src` survive. -/
def copytree (fs : FS) (src dst : Path) : FS :=
  { fs with files := fun p =>
      match dropBase dst p with
      | some rest =>
        match fs.files (src ++ rest) with
        | some c => some c
        | none => fs.files p
      | none => fs.files p }

/-- tasks.py lines 101-108: the cypress argument list.  `pe` is the
`os.path.exists` oracle used for the `{environment}-config.json`
check. -/
def cypressArgs (project : Project) (pe : Path → Bool) (work_dir : Path) (results_file : Path) :
    List String :=
  let args0 := ["run", "--config", "baseUrl=" ++ project.targetUrl,
    "--reporter-options", "mochaFile=" ++ renderPath results_file]
  let args1 := if project.recordCypress.getD true then args0 ++ ["--record"] else args0
  let config_file_path := project.environment ++ "-config.json"
  if pe (work_dir ++ [config_file_path]) then args1 ++ ["--config-file", config_file_path]
  else args1

/-- tasks.py lines 145-149: the tavern/pytest argument list.  Property
expansion of the extra args is external and modelled as the identity. -/
def tavernArgs (project : Project) (test_dir : Path) (output_file : Path) : List String :=
  let args0 := ["--junit-xml", renderPath output_file, renderPath test_dir] ++
    project.tavernExtraArgs
  if project.verbose then args0 ++ ["-s", "-v"] else args0

/-- tasks.py lines 84-118, `_run_cypress_tests_in_directory`: skip with
`False` when the directory is absent; otherwise install dependencies
(no-op here), build the argument list, run the engine (recorded in the
trace; non-zero exit is non-fatal per the exec utility's contract), and
if `{work_dir}/target` exists copy it onto `./target` relative to the
process working directory.  The runner takes no role parameter. -/
def _run_cypress_tests_in_directory (ext : Ext) (project : Project) (work_dir : Path)
    (st : St) : Except PyErr Bool × St :=
  if st.fs.pathExists work_dir = false then
    (Except.ok false, st)
  else
    let results_file := (get_test_report_file project work_dir "cypress").1
    let args := cypressArgs project st.fs.pathExists work_dir results_file
    let st1 := { st with trace := st.trace ++
      [({ tool := Tool.cypress, dir := work_dir, runCwd := work_dir, role := none,
          args := args, reportPath := results_file } : Invocation)] }
    let st2 := if st1.fs.pathExists (work_dir ++ ["target"]) then
        { st1 with fs := copytree st1.fs (work_dir ++ ["target"]) (st1.cwd ++ ["target"]) }
      else st1
    (Except.ok true, st2)

/-- tasks.py lines 129-164, `_run_tavern_tests_in_dir`: skip with
`False` when the directory is absent; otherwise insert the test
directory at the front of `sys.path`, install requirements (no-op
here), build the argument list, export TARGET and the environment name,
save the working directory, chdir to the suite, run pytest, restore the
working directory in a `finally`, tail logs when a role was given
(no-op here), and raise `BuildFailedException` naming the report file
when pytest returned non-zero. -/
def _run_tavern_tests_in_dir (ext : Ext) (project : Project) (test_dir : Path)
    (role : Option String) (st : St) : Except PyErr Bool × St :=
  if st.fs.pathExists test_dir = false then
    (Except.ok false, st)
  else
    let output_file := (get_test_report_file project test_dir).1
    let st1 := { st with syspath := test_dir :: st.syspath }
    let args := tavernArgs project test_dir output_file
    let st2 := { st1 with envTarget := some project.targetUrl,
                          envEnvironment := some project.environment }
    let cache_wd := st2.cwd
    let st3 := { st2 with cwd := test_dir }
    let st4 := { st3 with trace := st3.trace ++
      [({ tool := Tool.tavern, dir := test_dir, runCwd := st3.cwd, role := role,
          args := args, reportPath := output_file } : Invocation)] }
    match ext.pytestMain st3.cwd args with
    | Except.error _ => (Except.error PyErr.raised, { st4 with cwd := cache_wd })
    | Except.ok ret =>
      let st5 := { st4 with cwd := cache_wd }
      if ret ≠ 0 then
        (Except.error (PyErr.buildFailed
          ("Tavern tests failed see complete output here - " ++ renderPath output_file)), st5)
      else (Except.ok true, st5)

/-- tasks.py lines 46-52: the `latest` loop over the cypress framework
directory: every entry of `listdir` that is a directory is run as its
own suite.  The cypress runner has no role parameter. -/
def runCypressPartition (ext : Ext) (project : Project) (cypress_test_path : Path) :
    List String → St → Except PyErr Unit × St
  | [], st => (Except.ok (), st)
  | d :: ds, st =>
    if st.fs.isdir (cypress_test_path ++ [d]) then
      match _run_cypress_tests_in_directory ext project (cypress_test_path ++ [d]) st with
      | (Except.error e, st1) => (Except.error e, st1)
      | (Except.ok _, st1) => runCypressPartition ext project cypress_test_path ds st1
    else runCypressPartition ext project cypress_test_path ds st

/-- tasks.py lines 62-69: the `latest` loop over the tavern framework
directory; each subdirectory entry is run with
`role = os.path.basename(dir)`, which for a bare `listdir` entry is the
entry itself. -/
def runTavernPartition (ext : Ext) (project : Project) (tavern_test_path : Path) :
    List String → St → Except PyErr Unit × St
  | [], st => (Except.ok (), st)
  | d :: ds, st =>
    if st.fs.isdir (tavern_test_path ++ [d]) then
      match _run_tavern_tests_in_dir ext project (tavern_test_path ++ [d]) (some d) st with
      | (Except.error e, st1) => (Except.error e, st1)
      | (Except.ok _, st1) => runTavernPartition ext project tavern_test_path ds st1
    else runTavernPartition ext project tavern_test_path ds st

/-- tasks.py lines 42-57: the cypress section of
`_run_tests_in_directory` — partitioned per subdirectory when `latest`,
one single-mode suite otherwise, skipped when the framework directory
is absent. -/
def cypressSection (ext : Ext) (project : Project) (dist_directory : Path) (latest : Bool)
    (st : St) : Except PyErr Unit × St :=
  let cypress_test_path := dist_directory ++ ["cypress"]
  if st.fs.pathExists cypress_test_path then
    if latest then
      runCypressPartition ext project cypress_test_path (st.fs.listdir cypress_test_path) st
    else
      match _run_cypress_tests_in_directory ext project cypress_test_path st with
      | (Except.error e, st1) => (Except.error e, st1)
      | (Except.ok _, st1) => (Except.ok (), st1)
  else (Except.ok (), st)

/-- tasks.py lines 58-74: the tavern section of
`_run_tests_in_directory`, analogous to the cypress section but passing
the subdirectory basename as role in partitioned mode. -/
def tavernSection (ext : Ext) (project : Project) (dist_directory : Path) (latest : Bool)
    (st : St) : Except PyErr Unit × St :=
  let tavern_test_path := dist_directory ++ ["tavern"]
  if st.fs.pathExists tavern_test_path then
    if latest then
      runTavernPartition ext project tavern_test_path (st.fs.listdir tavern_test_path) st
    else
      match _run_tavern_tests_in_dir ext project tavern_test_path none st with
      | (Except.error e, st1) => (Except.error e, st1)
      | (Except.ok _, st1) => (Except.ok (), st1)
  else (Except.ok (), st)

/-- tasks.py lines 41-74, `_run_tests_in_directory`: the cypress section
runs first, then the tavern section; an exception escaping a runner
aborts everything after it. -/
def _run_tests_in_directory (ext : Ext) (project : Project) (dist_directory : Path)
    (latest : Bool) (st : St) : Except PyErr Unit × St :=
  match cypressSection ext project dist_directory latest st with
  | (Except.error e, st1) => (Except.error e, st1)
  | (Except.ok _, st1) => tavernSection ext project dist_directory latest st1

/-- tasks.py lines 19-27, `integration_artifact_push`: for each tool in
`["tavern", "cypress"]`, upload its local archive when that file
exists. -/
def integration_artifact_push (project : Project) (st : St) : St :=
  [Tool.tavern, Tool.cypress].foldl
    (fun s tool =>
      if s.fs.pathExists (project.zipArtifactPath tool) then
        { s with uploads := s.uploads ++ [tool] }
      else s) st

/-- tasks.py lines 30-38, `verify_environment`: run the local pass
(single mode), download the latest artifacts, run the latest pass
(partitioned mode), and push artifacts when the promote property
(default `True`) holds. -/
def verify_environment (ext : Ext) (project : Project) (st : St) : Except PyErr Unit × St :=
  let dist_directory := project.workingDistDir
  match _run_tests_in_directory ext project dist_directory false st with
  | (Except.error e, st1) => (Except.error e, st1)
  | (Except.ok _, st1) =>
    match ext.downloadArtifacts with
    | Except.error _ => (Except.error PyErr.raised, st1)
    | Except.ok latest_directory =>
      match _run_tests_in_directory ext project latest_directory true st1 with
      | (Except.error e, st2) => (Except.error e, st2)
      | (Except.ok _, st2) =>
        if project.promoteArtifact.getD true then
          (Except.ok (), integration_artifact_push project st2)
        else (Except.ok (), st2)

/-- A path lies under a base directory when it extends it by some
components. -/
def pathUnder (base p : Path) : Prop := ∃ rest, p = base ++ rest

/-- The invocation record the cypress runner produces for a suite
directory, as a function of the project and the existence oracle. -/
def cypressInvocation (project : Project) (pe : Path → Bool) (work_dir : Path) : Invocation :=
  { tool := Tool.cypress, dir := work_dir, runCwd := work_dir, role := none,
    args := cypressArgs project pe work_dir (get_test_report_file project work_dir "cypress").1,
    reportPath := (get_test_report_file project work_dir "cypress").1 }

/-- The invocation record the tavern runner produces for a suite
directory and role. -/
def tavernInvocation (project : Project) (test_dir : Path) (role : Option String) : Invocation :=
  { tool := Tool.tavern, dir := test_dir, runCwd := test_dir, role := role,
    args := tavernArgs project test_dir (get_test_report_file project test_dir).1,
    reportPath := (get_test_report_file project test_dir).1 }

/-- The invocations a partitioned cypress walk over the given
subdirectory entries produces: one per entry that is an existing
directory, each with no role. -/
def cypressPartitionDelta (project : Project) (fs : FS) (path : Path) (ds : List String) :
    List Invocation :=
  (ds.filter (fun d => fs.isdir (path ++ [d]) && fs.pathExists (path ++ [d]))).map
    (fun d => cypressInvocation project fs.pathExists (path ++ [d]))

/-- The invocations a partitioned tavern walk over the given
subdirectory entries produces when every engine run passes: one per
entry that is an existing directory, each carrying the entry's basename
as its role. -/
def tavernPartitionDelta (project : Project) (fs : FS) (path : Path) (ds : List String) :
    List Invocation :=
  (ds.filter (fun d => fs.isdir (path ++ [d]) && fs.pathExists (path ++ [d]))).map
    (fun d => tavernInvocation project (path ++ [d]) (some d))

/-- The invocations the cypress section of a walk produces: none when
the framework directory is absent, one single-mode suite when not
`latest`, one per existing immediate subdirectory when `latest`. -/
def cypressSectionDelta (project : Project) (fs : FS) (dist : Path) (latest : Bool) :
    List Invocation :=
  if fs.pathExists (dist ++ ["cypress"]) then
    if latest then
      cypressPartitionDelta project fs (dist ++ ["cypress"]) (fs.listdir (dist ++ ["cypress"]))
    else [cypressInvocation project fs.pathExists (dist ++ ["cypress"])]
  else []

/-- The invocations the tavern section of a walk produces when every
engine run passes, analogous to `cypressSectionDelta` but carrying the
subdirectory basename as role in `latest` mode and no role in single
mode. -/
def tavernSectionDelta (project : Project) (fs : FS) (dist : Path) (latest : Bool) :
    List Invocation :=
  if fs.pathExists (dist ++ ["tavern"]) then
    if latest then
      tavernPartitionDelta project fs (dist ++ ["tavern"]) (fs.listdir (dist ++ ["tavern"]))
    else [tavernInvocation project (dist ++ ["tavern"]) none]
  else []

/-- Concrete pybuilder project used by the witnesses. -/
def sampleProject : Project :=
  { targetUrl := "http://target", environment := "dev", recordCypress := none, verbose := false,
    tavernExtraArgs := [], promoteArtifact := none, reportsDir := ["reports"],
    workingDistDir := ["dist"],
    zipArtifactPath := fun t => match t with
      | Tool.tavern => ["zips", "tavern.zip"]
      | Tool.cypress => ["zips", "cypress.zip"] }

/-- External collaborators whose pytest always passes. -/
def extOk : Ext :=
  { pytestMain := fun _ _ => Except.ok 0, downloadArtifacts := Except.ok ["latest"] }

/-- External collaborators whose pytest fails (exit code 1) exactly in
the suite directory `dist/tavern/A` and passes elsewhere. -/
def extFailA : Ext :=
  { pytestMain := fun cwd _ =>
      if cwd = ["dist", "tavern", "A"] then Except.ok 1 else Except.ok 0,
    downloadArtifacts := Except.ok ["latest"] }

/-- Initial process state over a given filesystem. -/
def st0 (fs : FS) : St :=
  { cwd := ["home"], syspath := [], envTarget := none, envEnvironment := none,
    fs := fs, trace := [], uploads := [] }

/-- Filesystem whose only test content is a tavern framework directory
with role subdirectories `A` and `B`. -/
def fsTavAB : FS :=
  { pathExists := fun p =>
      decide (p ∈ [["dist", "tavern"], ["dist", "tavern", "A"], ["dist", "tavern", "B"]]),
    isdir := fun p =>
      decide (p ∈ [["dist", "tavern"], ["dist", "tavern", "A"], ["dist", "tavern", "B"]]),
    listdir := fun p => if p = ["dist", "tavern"] then ["A", "B"] else [],
    files := fun _ => none }

/-- Filesystem whose only test content is a cypress framework directory
with the single role subdirectory `A`. -/
def fsCypA : FS :=
  { pathExists := fun p => decide (p ∈ [["dist", "cypress"], ["dist", "cypress", "A"]]),
    isdir := fun p => decide (p ∈ [["dist", "cypress"], ["dist", "cypress", "A"]]),
    listdir := fun p => if p = ["dist", "cypress"] then ["A"] else [],
    files := fun _ => none }

/-- Filesystem with a cypress working directory `work` whose `target`
subdirectory holds `x.json`, plus a stale pre-existing copy at the
destination `home/target/x.json`. -/
def fsCypTarget : FS :=
  { pathExists := fun p =>
      decide (p ∈ [["work"], ["work", "target"], ["work", "target", "x.json"]]),
    isdir := fun p => decide (p ∈ [["work"], ["work", "target"]]),
    listdir := fun _ => [],
    files := fun p =>
      if p = ["work", "target", "x.json"] then some "fresh results"
      else if p = ["home", "target", "x.json"] then some "stale results" else none }

/-- Filesystem with no cypress and no tavern content at all. -/
def fsEmpty : FS :=
  { pathExists := fun _ => false, isdir := fun _ => false,
    listdir := fun _ => [], files := fun _ => none }

theorem foldl_resolve_of_not_pardir (p : Path) :
    ∀ acc : Path, pardir ∉ p →
      p.foldl (fun acc c => if c = pardir then acc.dropLast else acc ++ [c]) acc = acc ++ p := by
  induction p with
  | nil => intro acc _; simp
  | cons c cs ih =>
    intro acc h
    have hc : ¬ c = pardir := fun hc => h (hc ▸ List.mem_cons_self c cs)
    have hcs : pardir ∉ cs := fun hm => h (List.mem_cons_of_mem _ hm)
    simp only [List.foldl_cons, if_neg hc, ih (acc ++ [c]) hcs, List.append_assoc,
      List.singleton_append]

theorem realpathNorm_of_not_pardir (p : Path) (h : pardir ∉ p) : realpathNorm p = p := by
  simpa using foldl_resolve_of_not_pardir p [] h

theorem realpathNorm_append_pardir (p : Path) :
    realpathNorm (p ++ [pardir]) = (realpathNorm p).dropLast := by
  simp [realpathNorm, List.foldl_append, pardir]

theorem report_file_spec (project : Project) (test_dir : Path) (tool : String)
    (h : pardir ∉ test_dir) :
    get_test_report_file project test_dir tool
      = (project.reportsDir ++ [tool ++ "-" ++ basename test_dir.dropLast ++ ".out.xml"],
         basename test_dir.dropLast) := by
  simp [get_test_report_file, realpathNorm_append_pardir, realpathNorm_of_not_pardir _ h]

/-- C4: for every test directory (with no `..` component) and tool name,
`get_test_report_file` deterministically returns the basename of the
test directory's parent as the run name and
`{reports}/{tool}-{runName}.out.xml` as the report path, which lies
under the reports directory. -/
theorem claim_c4_report_locator (project : Project) (test_dir : Path) (tool : String)
    (h : pardir ∉ test_dir) :
    get_test_report_file project test_dir tool
      = (project.reportsDir ++ [tool ++ "-" ++ basename test_dir.dropLast ++ ".out.xml"],
         basename test_dir.dropLast)
    ∧ pathUnder project.reportsDir (get_test_report_file project test_dir tool).1 := by
  exact ⟨report_file_spec project test_dir tool h, ⟨_, rfl⟩⟩

theorem claim_c4_report_locator_witness :
    get_test_report_file sampleProject ["dist", "tavern", "api"] "tavern"
      = (sampleProject.reportsDir ++
          ["tavern" ++ "-" ++ basename (["dist", "tavern", "api"] : Path).dropLast ++ ".out.xml"],
         basename (["dist", "tavern", "api"] : Path).dropLast)
    ∧ pathUnder sampleProject.reportsDir
        (get_test_report_file sampleProject ["dist", "tavern", "api"] "tavern").1 :=
  claim_c4_report_locator sampleProject ["dist", "tavern", "api"] "tavern" (by decide)

/-- C3 counterexample: in a Partitioned (latest) walk over a tavern
framework directory with the two role sub-suites `A` and `B`, both
sub-suite invocations receive the same report path
`reports/tavern-tavern.out.xml` while their roles differ, because the
run name is the basename of the suite directory's parent — the shared
framework directory. -/
theorem claim_c3_counterexample :
    ((_run_tests_in_directory extOk sampleProject ["dist"] true (st0 fsTavAB)).2.trace.map
        (fun i => (i.role, i.reportPath)))
      = [(some "A", ["reports", "tavern-tavern.out.xml"]),
         (some "B", ["reports", "tavern-tavern.out.xml"])]
    ∧ (some "A" : Option String) ≠ some "B" := by
  exact ⟨by decide, by decide⟩

/-- C3 amended: a report path determines the (tool, run-name) pair — two
invocations share a report path only when they share the tool and the
run name — but in a Partitioned run two distinct role sub-suites of the
same framework DO receive the same report path, since the run name of
each is the basename of the shared framework directory. -/
theorem claim_c3_amended (project : Project) :
    (∀ t1 t2 : String, ∀ d1 d2 : Path,
      t1 ∈ (["tavern", "cypress"] : List String) → t2 ∈ (["tavern", "cypress"] : List String) →
      (get_test_report_file project d1 t1).1 = (get_test_report_file project d2 t2).1 →
      t1 = t2 ∧ (get_test_report_file project d1 t1).2 = (get_test_report_file project d2 t2).2)
    ∧ ∀ root : Path, ∀ a b : String, pardir ∉ root → a ≠ pardir → b ≠ pardir →
        (get_test_report_file project (root ++ ["tavern", a])).1
          = (get_test_report_file project (root ++ ["tavern", b])).1 := by
  constructor
  · intro t1 t2 d1 d2 h1 h2 hpath
    have hname : t1 ++ "-" ++ (get_test_report_file project d1 t1).2 ++ ".out.xml"
        = t2 ++ "-" ++ (get_test_report_file project d2 t2).2 ++ ".out.xml" := by
      have := List.append_cancel_left hpath
      simpa [get_test_report_file] using this
    have hd := congrArg String.data hname
    simp only [String.data_append, List.append_assoc] at hd
    rcases List.mem_pair.mp h1 with h1 | h1 <;> rcases List.mem_pair.mp h2 with h2 | h2 <;>
      subst h1 <;> subst h2
    · exact ⟨rfl, String.ext (List.append_cancel_right
        (List.append_cancel_left (List.append_cancel_left hd)))⟩
    · simp at hd
    · simp at hd
    · exact ⟨rfl, String.ext (List.append_cancel_right
        (List.append_cancel_left (List.append_cancel_left hd)))⟩
  · intro root a b hroot ha hb
    have key : ∀ c : String, c ≠ pardir → pardir ∉ root ++ ["tavern", c] := by
      intro c hc hm
      rcases List.mem_append.mp hm with hm | hm
      · exact hroot hm
      · rcases List.mem_cons.mp hm with hm | hm
        · exact absurd hm (by decide)
        · rcases List.mem_cons.mp hm with hm | hm
          · exact hc hm.symm
          · exact absurd hm (List.not_mem_nil _)
    have hdrop : ∀ c : String, (root ++ ["tavern", c]).dropLast = root ++ ["tavern"] := by
      intro c
      have h2 : root ++ ["tavern", c] = (root ++ ["tavern"]) ++ [c] := by simp
      rw [h2, List.dropLast_concat]
    rw [report_file_spec project (root ++ ["tavern", a]) "tavern" (key a ha),
        report_file_spec project (root ++ ["tavern", b]) "tavern" (key b hb)]
    simp [hdrop]

theorem claim_c3_amended_witness :
    (("tavern" : String) = "tavern"
      ∧ (get_test_report_file sampleProject ["dist", "tavern", "A"] "tavern").2
          = (get_test_report_file sampleProject ["dist", "tavern", "B"] "tavern").2)
    ∧ (get_test_report_file sampleProject (["dist"] ++ ["tavern", "A"])).1
        = (get_test_report_file sampleProject (["dist"] ++ ["tavern", "B"])).1 :=
  ⟨(claim_c3_amended sampleProject).1 "tavern" "tavern" ["dist", "tavern", "A"]
      ["dist", "tavern", "B"] (by decide) (by decide) (by rfl),
   (claim_c3_amended sampleProject).2 ["dist"] "A" "B" (by decide) (by decide) (by decide)⟩

theorem dropBase_append (base rest : Path) : dropBase base (base ++ rest) = some rest := by
  induction base with
  | nil => rfl
  | cons b bs ih => simp [dropBase, ih]

theorem copytree_files_of_src (fs : FS) (src dst r : Path) (c : String)
    (h : fs.files (src ++ r) = some c) :
    (copytree fs src dst).files (dst ++ r) = some c := by
  simp [copytree, dropBase_append, h]

theorem run_tavern_absent (ext : Ext) (project : Project) (test_dir : Path)
    (role : Option String) (st : St) (h : st.fs.pathExists test_dir = false) :
    _run_tavern_tests_in_dir ext project test_dir role st = (Except.ok false, st) := by
  simp [_run_tavern_tests_in_dir, h]

theorem run_tavern_state_char (ext : Ext) (project : Project) (test_dir : Path)
    (role : Option String) (st : St) (h : st.fs.pathExists test_dir = true) :
    ((_run_tavern_tests_in_dir ext project test_dir role st).2).trace
        = st.trace ++ [tavernInvocation project test_dir role]
    ∧ ((_run_tavern_tests_in_dir ext project test_dir role st).2).cwd = st.cwd
    ∧ ((_run_tavern_tests_in_dir ext project test_dir role st).2).syspath
        = test_dir :: st.syspath
    ∧ ((_run_tavern_tests_in_dir ext project test_dir role st).2).uploads = st.uploads
    ∧ ((_run_tavern_tests_in_dir ext project test_dir role st).2).fs = st.fs
    ∧ ((_run_tavern_tests_in_dir ext project test_dir role st).2).envTarget
        = some project.targetUrl
    ∧ ((_run_tavern_tests_in_dir ext project test_dir role st).2).envEnvironment
        = some project.environment := by
  simp only [_run_tavern_tests_in_dir, h, Bool.true_eq_false, if_false, ite_false]
  cases hpy : ext.pytestMain test_dir
      (tavernArgs project test_dir (get_test_report_file project test_dir).1) with
  | error e => simp [hpy, tavernInvocation]
  | ok ret =>
    by_cases hr : ret ≠ 0 <;> simp [hpy, hr, tavernInvocation]

theorem run_tavern_result_ok (ext : Ext) (project : Project) (test_dir : Path)
    (role : Option String) (st : St) (h : st.fs.pathExists test_dir = true)
    (hpy : ext.pytestMain test_dir
      (tavernArgs project test_dir (get_test_report_file project test_dir).1) = Except.ok 0) :
    (_run_tavern_tests_in_dir ext project test_dir role st).1 = Except.ok true := by
  simp [_run_tavern_tests_in_dir, h, hpy]

theorem run_tavern_result_fail (ext : Ext) (project : Project) (test_dir : Path)
    (role : Option String) (st : St) (h : st.fs.pathExists test_dir = true) (n : Int)
    (hpy : ext.pytestMain test_dir
      (tavernArgs project test_dir (get_test_report_file project test_dir).1) = Except.ok n)
    (hn : n ≠ 0) :
    (_run_tavern_tests_in_dir ext project test_dir role st).1
      = Except.error (PyErr.buildFailed ("Tavern tests failed see complete output here - "
          ++ renderPath (get_test_report_file project test_dir).1)) := by
  simp [_run_tavern_tests_in_dir, h, hpy, hn]

theorem run_cypress_absent (ext : Ext) (project : Project) (work_dir : Path) (st : St)
    (h : st.fs.pathExists work_dir = false) :
    _run_cypress_tests_in_directory ext project work_dir st = (Except.ok false, st) := by
  simp [_run_cypress_tests_in_directory, h]

theorem run_cypress_char (ext : Ext) (project : Project) (work_dir : Path) (st : St)
    (h : st.fs.pathExists work_dir = true) :
    (_run_cypress_tests_in_directory ext project work_dir st).1 = Except.ok true
    ∧ ((_run_cypress_tests_in_directory ext project work_dir st).2).trace
        = st.trace ++ [cypressInvocation project st.fs.pathExists work_dir]
    ∧ ((_run_cypress_tests_in_directory ext project work_dir st).2).cwd = st.cwd
    ∧ ((_run_cypress_tests_in_directory ext project work_dir st).2).syspath = st.syspath
    ∧ ((_run_cypress_tests_in_directory ext project work_dir st).2).uploads = st.uploads
    ∧ ((_run_cypress_tests_in_directory ext project work_dir st).2).envTarget = st.envTarget
    ∧ ((_run_cypress_tests_in_directory ext project work_dir st).2).envEnvironment
        = st.envEnvironment
    ∧ ((_run_cypress_tests_in_directory ext project work_dir st).2).fs.pathExists
        = st.fs.pathExists
    ∧ ((_run_cypress_tests_in_directory ext project work_dir st).2).fs.isdir = st.fs.isdir
    ∧ ((_run_cypress_tests_in_directory ext project work_dir st).2).fs.listdir
        = st.fs.listdir := by
  simp only [_run_cypress_tests_in_directory, h, Bool.true_eq_false, if_false, ite_false]
  by_cases ht : st.fs.pathExists (work_dir ++ ["target"]) = true <;>
    simp [ht, cypressInvocation, copytree]

/-- C6: the tavern runner restores the caller's working directory on
every exit path — skip, engine success, engine failure (the raised
`BuildFailedException`) and an exception escaping the engine — and
every engine invocation it records executes with the suite directory as
its working directory. -/
theorem claim_c6_cwd_scoped (ext : Ext) (project : Project) (test_dir : Path)
    (role : Option String) (st : St) :
    ((_run_tavern_tests_in_dir ext project test_dir role st).2).cwd = st.cwd
    ∧ ∃ delta, ((_run_tavern_tests_in_dir ext project test_dir role st).2).trace
        = st.trace ++ delta ∧ ∀ i ∈ delta, i.runCwd = test_dir := by
  cases h : st.fs.pathExists test_dir with
  | false =>
    rw [run_tavern_absent ext project test_dir role st h]
    exact ⟨rfl, [], by simp, by simp⟩
  | true =>
    obtain ⟨htr, hcwd, -⟩ := run_tavern_state_char ext project test_dir role st h
    refine ⟨hcwd, [tavernInvocation project test_dir role], htr, ?_⟩
    intro i hi
    rw [List.mem_singleton.mp hi]
    rfl

/-- C10: the tavern runner on an existing test directory inserts the
test directory at the front of `sys.path` and the insertion survives
every outcome (success, failing engine status, escaping exception); on
an absent directory `sys.path` is untouched. -/
theorem claim_c10_syspath_persists (ext : Ext) (project : Project) (test_dir : Path)
    (role : Option String) (st : St) :
    ((_run_tavern_tests_in_dir ext project test_dir role st).2).syspath
      = if st.fs.pathExists test_dir then test_dir :: st.syspath else st.syspath := by
  cases h : st.fs.pathExists test_dir with
  | false => rw [run_tavern_absent ext project test_dir role st h]; simp
  | true =>
    obtain ⟨-, -, hsp, -⟩ := run_tavern_state_char ext project test_dir role st h
    simp [hsp]

theorem string_eq_empty_of_length (s : String) (h : s.length = 0) : s = "" := by
  apply String.ext
  have hd : s.data.length = 0 := by rw [String.length_data, h]
  simpa using List.eq_nil_of_length_eq_zero hd

theorem record_ne_baseUrl (url : String) : ("--record" : String) ≠ "baseUrl=" ++ url := by
  intro h
  have hlen := congrArg String.length h
  rw [String.length_append] at hlen
  have h1 : ("--record" : String).length = 8 := rfl
  have h2 : ("baseUrl=" : String).length = 8 := rfl
  rw [h1, h2] at hlen
  have h0 : url.length = 0 := by omega
  rw [string_eq_empty_of_length url h0] at h
  exact absurd h (by decide)

theorem record_ne_mochaFile (s : String) : ("--record" : String) ≠ "mochaFile=" ++ s := by
  intro h
  have hlen := congrArg String.length h
  rw [String.length_append] at hlen
  have h1 : ("--record" : String).length = 8 := rfl
  have h2 : ("mochaFile=" : String).length = 10 := rfl
  rw [h1, h2] at hlen
  omega

theorem record_ne_configFile (env : String) : ("--record" : String) ≠ env ++ "-config.json" := by
  intro h
  have hlen := congrArg String.length h
  rw [String.length_append] at hlen
  have h1 : ("--record" : String).length = 8 := rfl
  have h2 : ("-config.json" : String).length = 12 := rfl
  rw [h1, h2] at hlen
  omega

/-- C7: after a cypress run whose working directory has a `target`
subdirectory containing a file, that file is copied to the same
relative position under `./target` (resolved against the process
working directory), overwriting whatever was there before. -/
theorem claim_c7_target_merge (ext : Ext) (project : Project) (work_dir : Path) (st : St)
    (r : Path) (c : String)
    (h : st.fs.pathExists work_dir = true)
    (ht : st.fs.pathExists (work_dir ++ ["target"]) = true)
    (hf : st.fs.files ((work_dir ++ ["target"]) ++ r) = some c) :
    ((_run_cypress_tests_in_directory ext project work_dir st).2).fs.files
      ((st.cwd ++ ["target"]) ++ r) = some c := by
  simp only [_run_cypress_tests_in_directory, h, Bool.true_eq_false, if_false, ite_false]
  simp only [ht, ite_true, if_true]
  exact copytree_files_of_src st.fs (work_dir ++ ["target"]) (st.cwd ++ ["target"]) r c hf

/-- C9: for a cypress run on an existing directory, the recorded
invocation's argument list contains `--record` exactly when the
`record_cypress` property read with default `True` is truthy — so it is
present when the property is unset and omitted only when the property
is explicitly falsy. -/
theorem claim_c9_record_flag (ext : Ext) (project : Project) (work_dir : Path) (st : St)
    (h : st.fs.pathExists work_dir = true) :
    ((_run_cypress_tests_in_directory ext project work_dir st).2).trace
      = st.trace ++ [cypressInvocation project st.fs.pathExists work_dir]
    ∧ ("--record" ∈ (cypressInvocation project st.fs.pathExists work_dir).args
        ↔ project.recordCypress.getD true = true) := by
  refine ⟨(run_cypress_char ext project work_dir st h).2.1, ?_⟩
  by_cases hrec : project.recordCypress.getD true = true <;>
    by_cases hc : st.fs.pathExists (work_dir ++
        [project.environment ++ "-config.json"]) = true <;>
      simp [cypressInvocation, cypressArgs, hrec, hc, record_ne_baseUrl,
        record_ne_mochaFile, record_ne_configFile]

theorem claim_c7_target_merge_witness :
    ((_run_cypress_tests_in_directory extOk sampleProject ["work"] (st0 fsCypTarget)).2).fs.files
      (((st0 fsCypTarget).cwd ++ ["target"]) ++ ["x.json"]) = some "fresh results" :=
  claim_c7_target_merge extOk sampleProject ["work"] (st0 fsCypTarget) ["x.json"]
    "fresh results" (by decide) (by decide) (by decide)

theorem claim_c9_record_flag_witness :
    ((_run_cypress_tests_in_directory extOk sampleProject ["work"] (st0 fsCypTarget)).2).trace
      = (st0 fsCypTarget).trace
          ++ [cypressInvocation sampleProject (st0 fsCypTarget).fs.pathExists ["work"]]
    ∧ ("--record" ∈ (cypressInvocation sampleProject (st0 fsCypTarget).fs.pathExists
          ["work"]).args ↔ sampleProject.recordCypress.getD true = true) :=
  claim_c9_record_flag extOk sampleProject ["work"] (st0 fsCypTarget) (by decide)

/-- C8: on a root directory with neither a `cypress` nor a `tavern`
subdirectory the walk succeeds and returns the state untouched (zero
suite-runner invocations), and each runner on an absent test directory
returns the ran-nothing signal `false` without invoking any engine or
touching the state. -/
theorem claim_c8_skip_semantics (ext : Ext) (project : Project) (dist : Path) (latest : Bool)
    (st : St) (dir : Path) (role : Option String)
    (hc : st.fs.pathExists (dist ++ ["cypress"]) = false)
    (ht : st.fs.pathExists (dist ++ ["tavern"]) = false)
    (hd : st.fs.pathExists dir = false) :
    _run_tests_in_directory ext project dist latest st = (Except.ok (), st)
    ∧ _run_cypress_tests_in_directory ext project dir st = (Except.ok false, st)
    ∧ _run_tavern_tests_in_dir ext project dir role st = (Except.ok false, st) := by
  refine ⟨?_, run_cypress_absent ext project dir st hd,
    run_tavern_absent ext project dir role st hd⟩
  simp [_run_tests_in_directory, cypressSection, tavernSection, hc, ht]

theorem claim_c8_skip_semantics_witness :
    _run_tests_in_directory extOk sampleProject ["dist"] true (st0 fsEmpty)
        = (Except.ok (), st0 fsEmpty)
    ∧ _run_cypress_tests_in_directory extOk sampleProject ["dist", "cypress"] (st0 fsEmpty)
        = (Except.ok false, st0 fsEmpty)
    ∧ _run_tavern_tests_in_dir extOk sampleProject ["dist", "cypress"] none (st0 fsEmpty)
        = (Except.ok false, st0 fsEmpty) :=
  claim_c8_skip_semantics extOk sampleProject ["dist"] true (st0 fsEmpty) ["dist", "cypress"]
    none rfl rfl rfl

theorem runCypressPartition_char (ext : Ext) (project : Project) (path : Path)
    (ds : List String) : ∀ st : St,
    (runCypressPartition ext project path ds st).1 = Except.ok ()
    ∧ ((runCypressPartition ext project path ds st).2).trace
        = st.trace ++ cypressPartitionDelta project st.fs path ds
    ∧ ((runCypressPartition ext project path ds st).2).cwd = st.cwd
    ∧ ((runCypressPartition ext project path ds st).2).syspath = st.syspath
    ∧ ((runCypressPartition ext project path ds st).2).uploads = st.uploads
    ∧ ((runCypressPartition ext project path ds st).2).envTarget = st.envTarget
    ∧ ((runCypressPartition ext project path ds st).2).envEnvironment = st.envEnvironment
    ∧ ((runCypressPartition ext project path ds st).2).fs.pathExists = st.fs.pathExists
    ∧ ((runCypressPartition ext project path ds st).2).fs.isdir = st.fs.isdir
    ∧ ((runCypressPartition ext project path ds st).2).fs.listdir = st.fs.listdir := by
  induction ds with
  | nil =>
    intro st
    exact ⟨rfl, by simp [runCypressPartition, cypressPartitionDelta], rfl, rfl, rfl, rfl,
      rfl, rfl, rfl, rfl⟩
  | cons d ds ih =>
    intro st
    simp only [runCypressPartition]
    cases hdir : st.fs.isdir (path ++ [d]) with
    | false =>
      simp only [hdir, Bool.false_eq_true, if_false, ite_false]
      have hd : cypressPartitionDelta project st.fs path (d :: ds)
          = cypressPartitionDelta project st.fs path ds := by
        simp [cypressPartitionDelta, hdir]
      rw [hd]
      exact ih st
    | true =>
      simp only [hdir, if_true, ite_true]
      cases hex : st.fs.pathExists (path ++ [d]) with
      | false =>
        rw [run_cypress_absent ext project (path ++ [d]) st hex]
        have hd : cypressPartitionDelta project st.fs path (d :: ds)
            = cypressPartitionDelta project st.fs path ds := by
          simp [cypressPartitionDelta, hdir, hex]
        rw [hd]
        exact ih st
      | true =>
        have char := run_cypress_char ext project (path ++ [d]) st hex
        cases hrun : _run_cypress_tests_in_directory ext project (path ++ [d]) st with
        | mk r st1 =>
          rw [hrun] at char
          obtain ⟨hr, htr, hcwd, hsp, hup, het, hee, hpe, hid, hld⟩ := char
          have hr' : r = Except.ok true := hr
          subst hr'
          have hrest := ih st1
          have hd : cypressPartitionDelta project st.fs path (d :: ds)
              = cypressInvocation project st.fs.pathExists (path ++ [d])
                  :: cypressPartitionDelta project st.fs path ds := by
            simp [cypressPartitionDelta, hdir, hex]
          have hds : cypressPartitionDelta project st1.fs path ds
              = cypressPartitionDelta project st.fs path ds := by
            simp only [cypressPartitionDelta]
            rw [hpe, hid]
          refine ⟨hrest.1, ?_, ?_, ?_, ?_, ?_, ?_, ?_, ?_, ?_⟩
          · rw [hrest.2.1, hds, htr, hd]
            simp
          · rw [hrest.2.2.1, hcwd]
          · rw [hrest.2.2.2.1, hsp]
          · rw [hrest.2.2.2.2.1, hup]
          · rw [hrest.2.2.2.2.2.1, het]
          · rw [hrest.2.2.2.2.2.2.1, hee]
          · rw [hrest.2.2.2.2.2.2.2.1, hpe]
          · rw [hrest.2.2.2.2.2.2.2.2.1, hid]
          · rw [hrest.2.2.2.2.2.2.2.2.2, hld]

theorem runTavernPartition_pres (ext : Ext) (project : Project) (path : Path)
    (ds : List String) : ∀ st : St,
    ((runTavernPartition ext project path ds st).2).uploads = st.uploads
    ∧ ((runTavernPartition ext project path ds st).2).fs.pathExists = st.fs.pathExists
    ∧ ((runTavernPartition ext project path ds st).2).fs.isdir = st.fs.isdir
    ∧ ((runTavernPartition ext project path ds st).2).fs.listdir = st.fs.listdir
    ∧ ((runTavernPartition ext project path ds st).2).cwd = st.cwd := by
  induction ds with
  | nil => intro st; exact ⟨rfl, rfl, rfl, rfl, rfl⟩
  | cons d ds ih =>
    intro st
    simp only [runTavernPartition]
    cases hdir : st.fs.isdir (path ++ [d]) with
    | false =>
      simp only [hdir, Bool.false_eq_true, if_false, ite_false]
      exact ih st
    | true =>
      simp only [hdir, if_true, ite_true]
      cases hex : st.fs.pathExists (path ++ [d]) with
      | false =>
        rw [run_tavern_absent ext project (path ++ [d]) (some d) st hex]
        exact ih st
      | true =>
        have char := run_tavern_state_char ext project (path ++ [d]) (some d) st hex
        cases hrun : _run_tavern_tests_in_dir ext project (path ++ [d]) (some d) st with
        | mk r st1 =>
          rw [hrun] at char
          obtain ⟨-, hcwd, -, hup, hfs, -, -⟩ := char
          cases r with
          | error e => exact ⟨hup, by rw [hfs], by rw [hfs], by rw [hfs], hcwd⟩
          | ok b =>
            have hrest := ih st1
            exact ⟨by rw [hrest.1, hup], by rw [hrest.2.1, hfs], by rw [hrest.2.2.1, hfs],
              by rw [hrest.2.2.2.1, hfs], by rw [hrest.2.2.2.2, hcwd]⟩

theorem runTavernPartition_ok (ext : Ext) (project : Project) (path : Path)
    (ds : List String)
    (hall : ∀ d ∈ ds, ∀ args, ext.pytestMain (path ++ [d]) args = Except.ok 0) : ∀ st : St,
    (runTavernPartition ext project path ds st).1 = Except.ok ()
    ∧ ((runTavernPartition ext project path ds st).2).trace
        = st.trace ++ tavernPartitionDelta project st.fs path ds
    ∧ ((runTavernPartition ext project path ds st).2).cwd = st.cwd
    ∧ ((runTavernPartition ext project path ds st).2).uploads = st.uploads
    ∧ ((runTavernPartition ext project path ds st).2).fs = st.fs := by
  induction ds with
  | nil =>
    intro st
    exact ⟨rfl, by simp [runTavernPartition, tavernPartitionDelta], rfl, rfl, rfl⟩
  | cons d ds ih =>
    intro st
    have hall' : ∀ d2 ∈ ds, ∀ args, ext.pytestMain (path ++ [d2]) args = Except.ok 0 :=
      fun d2 hd2 => hall d2 (List.mem_cons_of_mem d hd2)
    simp only [runTavernPartition]
    cases hdir : st.fs.isdir (path ++ [d]) with
    | false =>
      simp only [hdir, Bool.false_eq_true, if_false, ite_false]
      have hd : tavernPartitionDelta project st.fs path (d :: ds)
          = tavernPartitionDelta project st.fs path ds := by
        simp [tavernPartitionDelta, hdir]
      rw [hd]
      exact ih hall' st
    | true =>
      simp only [hdir, if_true, ite_true]
      cases hex : st.fs.pathExists (path ++ [d]) with
      | false =>
        rw [run_tavern_absent ext project (path ++ [d]) (some d) st hex]
        have hd : tavernPartitionDelta project st.fs path (d :: ds)
            = tavernPartitionDelta project st.fs path ds := by
          simp [tavernPartitionDelta, hdir, hex]
        rw [hd]
        exact ih hall' st
      | true =>
        have hres := run_tavern_result_ok ext project (path ++ [d]) (some d) st hex
          (hall d (List.mem_cons_self d ds) _)
        have char := run_tavern_state_char ext project (path ++ [d]) (some d) st hex
        cases hrun : _run_tavern_tests_in_dir ext project (path ++ [d]) (some d) st with
        | mk r st1 =>
          rw [hrun] at char hres
          obtain ⟨htr, hcwd, -, hup, hfs, -, -⟩ := char
          have hr' : r = Except.ok true := hres
          subst hr'
          have hrest := ih hall' st1
          have hd : tavernPartitionDelta project st.fs path (d :: ds)
              = tavernInvocation project (path ++ [d]) (some d)
                  :: tavernPartitionDelta project st.fs path ds := by
            simp [tavernPartitionDelta, hdir, hex]
          refine ⟨hrest.1, ?_, ?_, ?_, ?_⟩
          · rw [hrest.2.1, hfs, htr, hd]
            simp
          · rw [hrest.2.2.1, hcwd]
          · rw [hrest.2.2.2.1, hup]
          · rw [hrest.2.2.2.2, hfs]

theorem runTavernPartition_fail (ext : Ext) (project : Project) (path : Path)
    (l1 : List String) (a : String) (l2 : List String) (na : Int) (fs0 : FS)
    (hl1 : ∀ d ∈ l1, ∀ args, ext.pytestMain (path ++ [d]) args = Except.ok 0)
    (hdir : fs0.isdir (path ++ [a]) = true)
    (hex : fs0.pathExists (path ++ [a]) = true)
    (hpy : ∀ args, ext.pytestMain (path ++ [a]) args = Except.ok na)
    (hna : na ≠ 0) : ∀ st : St,
    st.fs.pathExists = fs0.pathExists → st.fs.isdir = fs0.isdir →
    (runTavernPartition ext project path (l1 ++ a :: l2) st).1
      = Except.error (PyErr.buildFailed ("Tavern tests failed see complete output here - "
          ++ renderPath (get_test_report_file project (path ++ [a])).1))
    ∧ ((runTavernPartition ext project path (l1 ++ a :: l2) st).2).trace
      = st.trace ++ tavernPartitionDelta project fs0 path l1
          ++ [tavernInvocation project (path ++ [a]) (some a)] := by
  induction l1 with
  | nil =>
    intro st hpe hid
    simp only [List.nil_append, runTavernPartition]
    rw [hid, hdir]
    simp only [if_true, ite_true]
    have hres := run_tavern_result_fail ext project (path ++ [a]) (some a) st
      (by rw [hpe]; exact hex) na (hpy _) hna
    have char := run_tavern_state_char ext project (path ++ [a]) (some a) st
      (by rw [hpe]; exact hex)
    cases hrun : _run_tavern_tests_in_dir ext project (path ++ [a]) (some a) st with
    | mk r st1 =>
      rw [hrun] at char hres
      obtain ⟨htr, -, -, -, -, -, -⟩ := char
      have hr' : r = Except.error (PyErr.buildFailed
          ("Tavern tests failed see complete output here - "
            ++ renderPath (get_test_report_file project (path ++ [a])).1)) := hres
      subst hr'
      exact ⟨rfl, by rw [htr]; simp [tavernPartitionDelta]⟩
  | cons d l1 ih =>
    intro st hpe hid
    have hl1' : ∀ d2 ∈ l1, ∀ args, ext.pytestMain (path ++ [d2]) args = Except.ok 0 :=
      fun d2 hd2 => hl1 d2 (List.mem_cons_of_mem d hd2)
    simp only [List.cons_append, runTavernPartition]
    cases hdir2 : st.fs.isdir (path ++ [d]) with
    | false =>
      simp only [hdir2, Bool.false_eq_true, if_false, ite_false]
      have hdir0 : fs0.isdir (path ++ [d]) = false := by rw [← hid]; exact hdir2
      have hd : tavernPartitionDelta project fs0 path (d :: l1)
          = tavernPartitionDelta project fs0 path l1 := by
        simp [tavernPartitionDelta, hdir0]
      rw [hd]
      exact ih hl1' st hpe hid
    | true =>
      simp only [hdir2, if_true, ite_true]
      cases hex2 : st.fs.pathExists (path ++ [d]) with
      | false =>
        rw [run_tavern_absent ext project (path ++ [d]) (some d) st hex2]
        have hdir0 : fs0.isdir (path ++ [d]) = true := by rw [← hid]; exact hdir2
        have hex0 : fs0.pathExists (path ++ [d]) = false := by rw [← hpe]; exact hex2
        have hd : tavernPartitionDelta project fs0 path (d :: l1)
            = tavernPartitionDelta project fs0 path l1 := by
          simp [tavernPartitionDelta, hdir0, hex0]
        rw [hd]
        exact ih hl1' st hpe hid
      | true =>
        have hres := run_tavern_result_ok ext project (path ++ [d]) (some d) st hex2
          (hl1 d (List.mem_cons_self d l1) _)
        have char := run_tavern_state_char ext project (path ++ [d]) (some d) st hex2
        cases hrun : _run_tavern_tests_in_dir ext project (path ++ [d]) (some d) st with
        | mk r st1 =>
          rw [hrun] at char hres
          obtain ⟨htr, -, -, -, hfs, -, -⟩ := char
          have hr' : r = Except.ok true := hres
          subst hr'
          have hpe1 : st1.fs.pathExists = fs0.pathExists := by rw [hfs, hpe]
          have hid1 : st1.fs.isdir = fs0.isdir := by rw [hfs, hid]
          have hrest := ih hl1' st1 hpe1 hid1
          have hdir0 : fs0.isdir (path ++ [d]) = true := by rw [← hid]; exact hdir2
          have hex0 : fs0.pathExists (path ++ [d]) = true := by rw [← hpe]; exact hex2
          have hd : tavernPartitionDelta project fs0 path (d :: l1)
              = tavernInvocation project (path ++ [d]) (some d)
                  :: tavernPartitionDelta project fs0 path l1 := by
            simp [tavernPartitionDelta, hdir0, hex0]
          refine ⟨hrest.1, ?_⟩
          show (runTavernPartition ext project path (l1 ++ a :: l2) st1).2.trace = _
          rw [hrest.2, htr, hd]
          simp

theorem cypressSection_char (ext : Ext) (project : Project) (dist : Path) (latest : Bool)
    (st : St) :
    (cypressSection ext project dist latest st).1 = Except.ok ()
    ∧ ((cypressSection ext project dist latest st).2).trace
        = st.trace ++ cypressSectionDelta project st.fs dist latest
    ∧ ((cypressSection ext project dist latest st).2).cwd = st.cwd
    ∧ ((cypressSection ext project dist latest st).2).syspath = st.syspath
    ∧ ((cypressSection ext project dist latest st).2).uploads = st.uploads
    ∧ ((cypressSection ext project dist latest st).2).envTarget = st.envTarget
    ∧ ((cypressSection ext project dist latest st).2).envEnvironment = st.envEnvironment
    ∧ ((cypressSection ext project dist latest st).2).fs.pathExists = st.fs.pathExists
    ∧ ((cypressSection ext project dist latest st).2).fs.isdir = st.fs.isdir
    ∧ ((cypressSection ext project dist latest st).2).fs.listdir = st.fs.listdir := by
  simp only [cypressSection, cypressSectionDelta]
  cases hc : st.fs.pathExists (dist ++ ["cypress"]) with
  | false =>
    simp [hc]
  | true =>
    simp only [hc, if_true, ite_true]
    cases latest with
    | true =>
      simp only [if_true, ite_true]
      exact runCypressPartition_char ext project (dist ++ ["cypress"])
        (st.fs.listdir (dist ++ ["cypress"])) st
    | false =>
      simp only [Bool.false_eq_true, if_false, ite_false]
      have char := run_cypress_char ext project (dist ++ ["cypress"]) st hc
      cases hrun : _run_cypress_tests_in_directory ext project (dist ++ ["cypress"]) st with
      | mk r st1 =>
        rw [hrun] at char
        obtain ⟨hr, htr, hcwd, hsp, hup, het, hee, hpe, hid, hld⟩ := char
        have hr' : r = Except.ok true := hr
        subst hr'
        exact ⟨rfl, htr, hcwd, hsp, hup, het, hee, hpe, hid, hld⟩

theorem tavernSection_pres (ext : Ext) (project : Project) (dist : Path) (latest : Bool)
    (st : St) :
    ((tavernSection ext project dist latest st).2).uploads = st.uploads
    ∧ ((tavernSection ext project dist latest st).2).fs.pathExists = st.fs.pathExists := by
  simp only [tavernSection]
  cases ht : st.fs.pathExists (dist ++ ["tavern"]) with
  | false =>
    simp [ht]
  | true =>
    simp only [ht, if_true, ite_true]
    cases latest with
    | true =>
      have h := runTavernPartition_pres ext project (dist ++ ["tavern"])
        (st.fs.listdir (dist ++ ["tavern"])) st
      exact ⟨h.1, h.2.1⟩
    | false =>
      simp only [Bool.false_eq_true, if_false, ite_false]
      have char := run_tavern_state_char ext project (dist ++ ["tavern"]) none st ht
      cases hrun : _run_tavern_tests_in_dir ext project (dist ++ ["tavern"]) none st with
      | mk r st1 =>
        rw [hrun] at char
        obtain ⟨-, -, -, hup, hfs, -, -⟩ := char
        cases r with
        | error e => exact ⟨hup, by rw [hfs]⟩
        | ok b => exact ⟨hup, by rw [hfs]⟩

theorem tavernSection_ok (ext : Ext) (project : Project) (dist : Path) (latest : Bool)
    (st : St) (hall : ∀ p args, ext.pytestMain p args = Except.ok 0) :
    (tavernSection ext project dist latest st).1 = Except.ok ()
    ∧ ((tavernSection ext project dist latest st).2).trace
        = st.trace ++ tavernSectionDelta project st.fs dist latest := by
  simp only [tavernSection, tavernSectionDelta]
  cases ht : st.fs.pathExists (dist ++ ["tavern"]) with
  | false =>
    simp [ht]
  | true =>
    simp only [ht, if_true, ite_true]
    cases latest with
    | true =>
      have h := runTavernPartition_ok ext project (dist ++ ["tavern"])
        (st.fs.listdir (dist ++ ["tavern"])) (fun d _ args => hall _ args) st
      exact ⟨h.1, h.2.1⟩
    | false =>
      simp only [Bool.false_eq_true, if_false, ite_false]
      have hres := run_tavern_result_ok ext project (dist ++ ["tavern"]) none st ht (hall _ _)
      have char := run_tavern_state_char ext project (dist ++ ["tavern"]) none st ht
      cases hrun : _run_tavern_tests_in_dir ext project (dist ++ ["tavern"]) none st with
      | mk r st1 =>
        rw [hrun] at char hres
        obtain ⟨htr, -, -, -, -, -, -⟩ := char
        have hr' : r = Except.ok true := hres
        subst hr'
        exact ⟨rfl, htr⟩

theorem tavernSectionDelta_congr (project : Project) (fs1 fs2 : FS) (dist : Path)
    (latest : Bool) (hpe : fs1.pathExists = fs2.pathExists) (hid : fs1.isdir = fs2.isdir)
    (hld : fs1.listdir = fs2.listdir) :
    tavernSectionDelta project fs1 dist latest = tavernSectionDelta project fs2 dist latest := by
  simp only [tavernSectionDelta, tavernPartitionDelta]
  rw [hpe, hid, hld]

theorem walk_pres (ext : Ext) (project : Project) (dist : Path) (latest : Bool) (st : St) :
    ((_run_tests_in_directory ext project dist latest st).2).uploads = st.uploads
    ∧ ((_run_tests_in_directory ext project dist latest st).2).fs.pathExists
        = st.fs.pathExists := by
  simp only [_run_tests_in_directory]
  have ccy := cypressSection_char ext project dist latest st
  cases hsec : cypressSection ext project dist latest st with
  | mk r st1 =>
    rw [hsec] at ccy
    obtain ⟨hr, -, -, -, hup, -, -, hpe, -, -⟩ := ccy
    have hr' : r = Except.ok () := hr
    subst hr'
    have htp := tavernSection_pres ext project dist latest st1
    exact ⟨by rw [htp.1, hup], by rw [htp.2, hpe]⟩

theorem integration_artifact_push_char (project : Project) (st : St) :
    (integration_artifact_push project st).uploads
      = st.uploads ++ [Tool.tavern, Tool.cypress].filter
          (fun t => st.fs.pathExists (project.zipArtifactPath t)) := by
  simp only [integration_artifact_push, List.foldl_cons, List.foldl_nil]
  by_cases h1 : st.fs.pathExists (project.zipArtifactPath Tool.tavern) = true <;>
    by_cases h2 : st.fs.pathExists (project.zipArtifactPath Tool.cypress) = true <;>
      simp [h1, h2]

/-- C2: in `verify_environment` the uploads performed are exactly: one
per framework whose local archive file exists, appended only when the
run result is a success and the promote property (default `True`) is
truthy; when either test pass (or the artifact download) fails the run
errors out and no upload at all is performed. -/
theorem claim_c2_promote_gating (ext : Ext) (project : Project) (st : St) :
    ((verify_environment ext project st).2).uploads
      = st.uploads ++
        (match (verify_environment ext project st).1 with
         | Except.ok _ =>
           if project.promoteArtifact.getD true then
             [Tool.tavern, Tool.cypress].filter
               (fun t => st.fs.pathExists (project.zipArtifactPath t))
           else []
         | Except.error _ => []) := by
  simp only [verify_environment]
  have p1 := walk_pres ext project project.workingDistDir false st
  generalize h1 : _run_tests_in_directory ext project project.workingDistDir false st = w1
  rw [h1] at p1
  obtain ⟨r1, st1⟩ := w1
  cases r1 with
  | error e => simpa using p1.1
  | ok u =>
    cases hdl : ext.downloadArtifacts with
    | error e => simpa using p1.1
    | ok latest_directory =>
      dsimp only
      have p2 := walk_pres ext project latest_directory true st1
      generalize h2 : _run_tests_in_directory ext project latest_directory true st1 = w2
      rw [h2] at p2
      obtain ⟨r2, st2⟩ := w2
      cases r2 with
      | error e =>
        have hup : st2.uploads = st.uploads := by rw [p2.1, p1.1]
        simpa using hup
      | ok u2 =>
        by_cases hp : project.promoteArtifact.getD true = true
        · simp only [hp, if_true, ite_true]
          show (integration_artifact_push project st2).uploads = _
          rw [integration_artifact_push_char project st2, p2.1, p1.1, p2.2, p1.2]
        · simp only [hp, Bool.false_eq_true, if_false, ite_false]
          have hup : st2.uploads = st.uploads := by rw [p2.1, p1.1]
          simpa [hp] using hup

/-- C5 counterexample: a Partitioned (latest) walk over a cypress
framework directory with sub-suite `A` runs the cypress runner on it,
but the runner takes no role parameter — the recorded invocation
carries no role instead of the subdirectory basename `A`. -/
theorem claim_c5_counterexample :
    ((_run_tests_in_directory extOk sampleProject ["dist"] true (st0 fsCypA)).2.trace.map
        (fun i => (i.tool, i.role)))
      = [(Tool.cypress, none)]
    ∧ (none : Option String) ≠ some "A" :=
  ⟨by decide, by decide⟩

/-- C5 amended: when every engine run passes, a walk runs — per
existing framework directory — each immediate subdirectory once as an
independent sub-suite in `latest` mode, and the framework directory
itself as one single-mode suite otherwise; the tavern runner is passed
the subdirectory's basename as role, while the cypress runner takes no
role parameter, so its invocations never carry one (and single-mode
suites carry no role). -/
theorem claim_c5_partition_dispatch (ext : Ext) (project : Project) (dist : Path)
    (latest : Bool) (st : St) (hall : ∀ p args, ext.pytestMain p args = Except.ok 0) :
    (_run_tests_in_directory ext project dist latest st).1 = Except.ok ()
    ∧ ((_run_tests_in_directory ext project dist latest st).2).trace
        = st.trace ++ cypressSectionDelta project st.fs dist latest
            ++ tavernSectionDelta project st.fs dist latest := by
  simp only [_run_tests_in_directory]
  have ccy := cypressSection_char ext project dist latest st
  cases hsec : cypressSection ext project dist latest st with
  | mk r st1 =>
    rw [hsec] at ccy
    obtain ⟨hr, htr, -, -, -, -, -, hpe, hid, hld⟩ := ccy
    have hr' : r = Except.ok () := hr
    subst hr'
    have htav := tavernSection_ok ext project dist latest st1 hall
    refine ⟨htav.1, ?_⟩
    show (tavernSection ext project dist latest st1).2.trace = _
    rw [htav.2, htr, tavernSectionDelta_congr project st1.fs st.fs dist latest hpe hid hld]

theorem claim_c5_partition_dispatch_witness :
    (_run_tests_in_directory extOk sampleProject ["dist"] true (st0 fsTavAB)).1 = Except.ok ()
    ∧ ((_run_tests_in_directory extOk sampleProject ["dist"] true (st0 fsTavAB)).2).trace
        = (st0 fsTavAB).trace
            ++ cypressSectionDelta sampleProject (st0 fsTavAB).fs ["dist"] true
            ++ tavernSectionDelta sampleProject (st0 fsTavAB).fs ["dist"] true :=
  claim_c5_partition_dispatch extOk sampleProject ["dist"] true (st0 fsTavAB)
    (fun _ _ => rfl)

/-- C1: in a Partitioned (latest) walk whose tavern listing is
`l1 ++ a :: l2`, where every sub-suite of `l1` passes and the engine
returns a non-zero code for `a`, the walk raises the fatal
`BuildFailedException` whose message names `a`'s report path, and the
trace ends with `a`'s invocation: no tavern sub-suite of `l2` is
processed. -/
theorem claim_c1_fatal_abort (ext : Ext) (project : Project) (dist : Path) (st : St)
    (l1 l2 : List String) (a : String) (na : Int)
    (htav : st.fs.pathExists (dist ++ ["tavern"]) = true)
    (hlist : st.fs.listdir (dist ++ ["tavern"]) = l1 ++ a :: l2)
    (hl1 : ∀ d ∈ l1, ∀ args, ext.pytestMain ((dist ++ ["tavern"]) ++ [d]) args = Except.ok 0)
    (hdir : st.fs.isdir ((dist ++ ["tavern"]) ++ [a]) = true)
    (hex : st.fs.pathExists ((dist ++ ["tavern"]) ++ [a]) = true)
    (hpy : ∀ args, ext.pytestMain ((dist ++ ["tavern"]) ++ [a]) args = Except.ok na)
    (hna : na ≠ 0) :
    (_run_tests_in_directory ext project dist true st).1
      = Except.error (PyErr.buildFailed ("Tavern tests failed see complete output here - "
          ++ renderPath (get_test_report_file project ((dist ++ ["tavern"]) ++ [a])).1))
    ∧ ((_run_tests_in_directory ext project dist true st).2).trace
      = st.trace ++ cypressSectionDelta project st.fs dist true
          ++ tavernPartitionDelta project st.fs (dist ++ ["tavern"]) l1
          ++ [tavernInvocation project ((dist ++ ["tavern"]) ++ [a]) (some a)] := by
  simp only [_run_tests_in_directory]
  have ccy := cypressSection_char ext project dist true st
  cases hsec : cypressSection ext project dist true st with
  | mk r st1 =>
    rw [hsec] at ccy
    obtain ⟨hr, htr, -, -, -, -, -, hpe, hid, hld⟩ := ccy
    have hr' : r = Except.ok () := hr
    subst hr'
    have hfail := runTavernPartition_fail ext project (dist ++ ["tavern"]) l1 a l2 na st.fs
      hl1 hdir hex hpy hna st1 hpe hid
    constructor
    · show (tavernSection ext project dist true st1).1 = _
      simp only [tavernSection]
      rw [hpe, htav]
      simp only [if_true, ite_true]
      rw [hld, hlist]
      exact hfail.1
    · show (tavernSection ext project dist true st1).2.trace = _
      simp only [tavernSection]
      rw [hpe, htav]
      simp only [if_true, ite_true]
      rw [hld, hlist]
      rw [hfail.2, htr]

theorem claim_c1_fatal_abort_witness :
    (_run_tests_in_directory extFailA sampleProject ["dist"] true (st0 fsTavAB)).1
      = Except.error (PyErr.buildFailed ("Tavern tests failed see complete output here - "
          ++ renderPath
              (get_test_report_file sampleProject ((["dist"] ++ ["tavern"]) ++ ["A"])).1))
    ∧ ((_run_tests_in_directory extFailA sampleProject ["dist"] true (st0 fsTavAB)).2).trace
      = (st0 fsTavAB).trace
          ++ cypressSectionDelta sampleProject (st0 fsTavAB).fs ["dist"] true
          ++ tavernPartitionDelta sampleProject (st0 fsTavAB).fs (["dist"] ++ ["tavern"]) []
          ++ [tavernInvocation sampleProject ((["dist"] ++ ["tavern"]) ++ ["A"]) (some "A")] :=
  claim_c1_fatal_abort extFailA sampleProject ["dist"] (st0 fsTavAB) [] ["B"] "A" 1
    (by decide) rfl (fun d hd => absurd hd (List.not_mem_nil d)) (by decide) (by decide)
    (fun _ => rfl) (by decide)

end PybuilderIntegration
